import Mathlib

/-!
# Verification of the continuous_v2t streaming transcription pipeline

Shallow embedding of the core pipeline of `app/live_transcriber.py`:
the ring buffer and window extraction of the Collector, the bounded
hand-off queue with drop-oldest backpressure, the start/silence gates of
the worker, the dedupe emitter, the graceful-stop flush, and the
session lifecycle state.

Bytes are modelled as `Nat` values (reduced mod 256 when decoded),
PCM buffers as `List Nat`, int16 samples as `Int`, and Python float
arithmetic as exact `ℚ` arithmetic.  The comparison `rms < c`
(with `rms = sqrt(mean(samples^2))`) is embedded in its equivalent
squared form, which is exact since `rms ≥ 0`.
-/

namespace ContinuousV2T

/-- Python `int(a / b)` for a rational `a / b` with `b > 0`:
truncation toward zero. -/
def pyTrunc (a b : ℤ) : ℤ := Int.tdiv a b

/-- Decode two bytes (little-endian) as a signed 16-bit sample, as
`np.frombuffer(..., dtype=np.int16)` does. -/
def toInt16 (lo hi : Nat) : ℤ :=
  let v : Nat := (lo % 256) + 256 * (hi % 256)
  if v < 32768 then (v : ℤ) else (v : ℤ) - 65536

/-- The int16 sample sequence of a little-endian PCM byte buffer
(`np.frombuffer(pcm_bytes, dtype=np.int16)`).  Real audio buffers have
even length; theorems that depend on the decoding carry that as a
hypothesis. -/
def samplesLE : List Nat → List ℤ
  | lo :: hi :: rest => toInt16 lo hi :: samplesLE rest
  | _ => []

/-- Sum of squared samples (the numerator of `mean(samples ** 2)`). -/
def sumSq (s : List ℤ) : ℤ := (s.map (fun x => x * x)).sum

/-- `peak = int(np.max(np.abs(samples))) if samples.size else 0`. -/
def peakOf (s : List ℤ) : ℤ := s.foldl (fun m x => max m |x|) 0

/-- The comparison `rms < num / den` (with `den > 0`) where
`rms = sqrt(mean(samples^2))` for a non-empty sample list and `0.0`
for an empty one (mirroring the guarded computation in the source).
Embedded in cross-multiplied squared form, which is exact since
`rms ≥ 0`: for non-empty `s` of length `n`,
`sqrt(sumSq/n) < num/den ↔ 0 < num ∧ sumSq * den^2 < num^2 * n`. -/
def rmsLtFrac (s : List ℤ) (num den : ℤ) : Bool :=
  if s.isEmpty then decide (0 < num)
  else decide (0 < num) && decide (sumSq s * den * den < num * num * (s.length : ℤ))

/-- The comparison `rms < c` for a rational threshold `c`. -/
def rmsLt (s : List ℤ) (c : ℚ) : Bool := rmsLtFrac s c.num (c.den : ℤ)

/-- The `LiveParams` configuration dataclass (defaults from the source). -/
structure LiveParams where
  sample_rate : ℕ := 16000
  channels : ℕ := 1
  sampwidth_bytes : ℕ := 2
  window_seconds : ℚ := 5
  overlap_seconds : ℚ := ⟨3, 2, by decide, by decide⟩
  capture_chunk_ms : ℕ := 100
  max_backlog_chunks : ℕ := 200
  min_flush_seconds : ℚ := ⟨3, 5, by decide, by decide⟩
  silence_rms_threshold : ℚ := 80
  silence_peak_threshold : ℤ := 900

/-- The default `LiveParams()`. -/
def defaultParams : LiveParams := {}

/-- Python tail slice `buf[-n:]` on a byte buffer: for `n = 0` this is
the *whole* buffer (since `-0 = 0`), otherwise the last `n` elements
(all of them when `n ≥ len`). -/
def pyTail (n : Nat) (l : List Nat) : List Nat :=
  if n = 0 then l else l.drop (l.length - n)

/-- Window extraction of the Collector, after a chunk has been appended
to the ring (`live_transcriber.py` lines 359-367): if the ring holds at
least `window` bytes, the snapshot is `ring[-window:]` and the ring is
replaced by `ring[-overlap:]` when `overlap > 0`, else cleared.
Returns the new ring and the extracted snapshot, if any. -/
def collectorWindowStep (window overlap : ℕ) (ring : List Nat) :
    List Nat × Option (List Nat) :=
  if window ≤ ring.length then
    let snapshot := pyTail window ring
    let ring' := if 0 < overlap then pyTail overlap ring else []
    (ring', some snapshot)
  else (ring, none)

/-- Backlog protection at the top of a Collector iteration
(lines 328-337): if the capture queue holds more than `maxBacklog`
chunks, drop `qsize - maxBacklog // 2` chunks from its front. -/
def backlogDrop (maxBacklog : ℕ) (backlog : List (List Nat)) :
    List (List Nat) :=
  if maxBacklog < backlog.length then
    backlog.drop (backlog.length - maxBacklog / 2)
  else backlog

/-- The drop-oldest push used by the Collector (lines 369-384) and by
the stop-time flush (lines 249-258): `put_nowait`; on `queue.Full`,
`get_nowait` the oldest entry (ignoring errors) and retry the
`put_nowait`, dropping the snapshot if the retry is also refused.
`put_nowait` raises `Full` iff `0 < maxsize ≤ qsize`. -/
def pushDropOldest (maxsize : ℕ) (q : List (List Nat)) (x : List Nat) :
    List (List Nat) :=
  if 0 < maxsize ∧ maxsize ≤ q.length then
    let q1 := q.drop 1
    if 0 < maxsize ∧ maxsize ≤ q1.length then q1 else q1 ++ [x]
  else q ++ [x]

/-- The steady-state SilenceGate of the worker (line 438):
skip iff `samples.size and rms < silence_rms_threshold and
peak < silence_peak_threshold`. -/
def steadySilent (p : LiveParams) (s : List ℤ) : Bool :=
  !s.isEmpty &&
    (rmsLt s p.silence_rms_threshold && decide (peakOf s < p.silence_peak_threshold))

/-- The stricter stop-time flush silence check (lines 242-245):
drop iff `rms < silence_rms_threshold * 0.8 and
peak < int(silence_peak_threshold * 1.3)`.  The scaled thresholds are
represented exactly: `c * 0.8 = (4 * c.num) / (5 * c.den)` and
`c * 1.3 = 13 * c / 10` truncated toward zero by `int()`. -/
def flushSilent (p : LiveParams) (s : List ℤ) : Bool :=
  rmsLtFrac s (4 * p.silence_rms_threshold.num) (5 * (p.silence_rms_threshold.den : ℤ)) &&
    decide (peakOf s < pyTrunc (13 * p.silence_peak_threshold) 10)

/-- Outcome of one worker iteration on a snapshot popped from the
hand-off queue. -/
inductive WOutcome
  | emptySkip
  | startSkip
  | silenceSkip
  | transcribed
  | transcribeFailed
  deriving DecidableEq, Repr

/-- Result of one worker iteration: the start-gate latch afterwards,
what happened to the snapshot, and whether an error was reported via
the status callback. -/
structure WorkerOut where
  started : Bool
  outcome : WOutcome
  statusReported : Bool
  deriving DecidableEq, Repr

/-- One iteration of the transcription worker on a dequeued snapshot
(`_transcribe_loop`, lines 407-468): empty buffers are skipped; while
the start-gate latch is closed, a snapshot with `peak < 1500 and
rms < 120` is skipped and the latch stays closed; otherwise the latch
is set, the SilenceGate may skip the snapshot, and a Transcriber-call
failure (`callFails`, an input of the external Transcriber) is caught,
logged and reported without leaving the loop. -/
def workerStep (p : LiveParams) (started : Bool) (pcm : List Nat)
    (callFails : Bool) : WorkerOut :=
  if pcm.isEmpty then ⟨started, .emptySkip, false⟩
  else if !started &&
      (decide (peakOf (samplesLE pcm) < 1500) && rmsLt (samplesLE pcm) 120) then
    ⟨started, .startSkip, false⟩
  else if steadySilent p (samplesLE pcm) then ⟨true, .silenceSkip, false⟩
  else if callFails then ⟨true, .transcribeFailed, true⟩
  else ⟨true, .transcribed, false⟩

/-- The worker loop over a list of snapshots, each paired with whether
its Transcriber call fails; returns the final latch state and one
outcome per snapshot. -/
def workerRun (p : LiveParams) (started : Bool) :
    List (List Nat × Bool) → Bool × List WOutcome
  | [] => (started, [])
  | (pcm, f) :: rest =>
    let o := workerStep p started pcm f
    let r := workerRun p o.started rest
    (r.1, o.outcome :: r.2)

/-- Whether a thread's loop continues after an iteration or was left
via `break`. -/
inductive LoopResult
  | continueLoop
  | breakLoop
  deriving DecidableEq, Repr

/-- Outcome of a single Collector iteration. -/
structure CollectorOut where
  ring : List Nat
  q : List (List Nat)
  backlog : List (List Nat)
  result : LoopResult
  statusReported : Bool
  deriving DecidableEq, Repr

/-- One iteration of the Collector loop (lines 326-392): backlog
protection, then one `audio_queue.get` (an empty backlog is the
`queue.Empty` timeout, `readFails` an exception raised by the read),
skipping empty chunks, appending to the ring, window extraction, and
the drop-oldest push.  The `except Exception` arm (lines 388-392)
logs, reports via the status callback when running, and `break`s. -/
def collectorIterate (window overlap maxBacklog qMax : ℕ) (running : Bool)
    (ring : List Nat) (q backlog : List (List Nat)) (readFails : Bool) :
    CollectorOut :=
  let b1 := backlogDrop maxBacklog backlog
  if readFails then ⟨ring, q, b1, .breakLoop, running⟩
  else
    match b1 with
    | [] => ⟨ring, q, [], .continueLoop, false⟩
    | d :: rest =>
      if d.isEmpty then ⟨ring, q, rest, .continueLoop, false⟩
      else
        let ws := collectorWindowStep window overlap (ring ++ d)
        match ws.2 with
        | some snap => ⟨ws.1, pushDropOldest qMax q snap, rest, .continueLoop, false⟩
        | none => ⟨ws.1, q, rest, .continueLoop, false⟩

/-- Python whitespace characters removed by a bare `str.strip()`
(ASCII range). -/
def pySpaceChars : List Char :=
  [' ', Char.ofNat 9, Char.ofNat 10, Char.ofNat 11, Char.ofNat 12, Char.ofNat 13]

/-- The fixed strip set of the dedupe normalization,
`" \t\r\n.,!?;:\"'()[]\x7b\x7d"` (line 294). -/
def stripSetChars : List Char :=
  [' ', Char.ofNat 9, Char.ofNat 13, Char.ofNat 10, '.', ',', '!', '?',
   ';', ':', Char.ofNat 34, Char.ofNat 39, '(', ')', '[', ']',
   Char.ofNat 123, Char.ofNat 125]

/-- Python `str.strip(chars)`: remove leading and trailing characters
belonging to the cut set. -/
def pyStrip (cut : Char → Bool) (s : List Char) : List Char :=
  ((s.dropWhile cut).reverse.dropWhile cut).reverse

/-- Python `str.lower()` (ASCII case mapping). -/
def pyLower (s : List Char) : List Char := s.map Char.toLower

/-- The bare `str.strip()` applied to each raw segment text. -/
def stripWs (s : List Char) : List Char :=
  pyStrip (fun c => pySpaceChars.contains c) s

/-- The dedupe normalization `t.lower().strip(" \t\r\n.,!?;:\"'()[]\x7b\x7d")`
applied to a candidate or remembered text. -/
def normPunct (s : List Char) : List Char :=
  pyStrip (fun c => stripSetChars.contains c) (pyLower s)

/-- What `_on_segment` did with a segment text. -/
inductive SegAction
  | skippedEmpty
  | deduped
  | emitted
  deriving DecidableEq, Repr

/-- Result of `_on_segment`: remembered text afterwards, the text
passed to the `on_text` callback (if any), and the action taken. -/
structure SegOut where
  last : List Char
  emitted : Option (List Char)
  action : SegAction
  deriving DecidableEq, Repr

/-- The DedupeEmitter `_on_segment` (lines 288-307): whitespace-strip
the raw text, drop it if empty; suppress it when its normalization
equals the normalization of the remembered text; otherwise remember
the stripped text and emit it. -/
def onSegment (last raw : List Char) : SegOut :=
  if (stripWs raw).isEmpty then ⟨last, none, .skippedEmpty⟩
  else if normPunct (stripWs raw) = normPunct last then ⟨last, none, .deduped⟩
  else ⟨stripWs raw, some (stripWs raw), .emitted⟩

/-- `min_flush_bytes = int(min_flush_seconds * sample_rate * channels *
sampwidth_bytes)` (lines 224-225), computed exactly on the rational
`min_flush_seconds = num / den` and truncated toward zero by `int()`. -/
def minFlushBytesOf (p : LiveParams) : ℤ :=
  pyTrunc (p.min_flush_seconds.num * (p.sample_rate * p.channels * p.sampwidth_bytes : ℕ))
    (p.min_flush_seconds.den : ℤ)

/-- The graceful-stop flush (lines 223-258): if the ring holds at least
`min_flush_bytes` bytes its full contents become the flush candidate,
else nothing; the ring is cleared either way; a non-empty candidate is
dropped when the flush silence check fails; a surviving candidate is
pushed with the drop-oldest policy.  Returns the ring and hand-off
queue afterwards. -/
def stopFlush (p : LiveParams) (qMax : ℕ) (ring : List Nat)
    (q : List (List Nat)) : List Nat × List (List Nat) :=
  let flush0 : List Nat := if minFlushBytesOf p ≤ (ring.length : ℤ) then ring else []
  let flush1 : List Nat :=
    if flush0.isEmpty then flush0
    else if flushSilent p (samplesLE flush0) then [] else flush0
  ([], if flush1.isEmpty then q else pushDropOldest qMax q flush1)

/-- The mutable per-instance state of `LiveTranscriber` relevant to
sessions: the running flag, the start-gate latch `_started_emitting`,
the remembered dedupe text `_last_emitted`, and the ring buffer. -/
structure LTState where
  running : Bool
  started_emitting : Bool
  last_emitted : List Char
  ring : List Nat
  deriving DecidableEq, Repr

/-- The state established by `__init__` (lines 64, 71, 84, 88). -/
def initLT : LTState :=
  { running := false, started_emitting := false, last_emitted := [], ring := [] }

/-- State effect of `start()` (lines 132-143): a no-op when already
running; otherwise it sets the running flag and clears the ring.
Neither `_started_emitting` nor `_last_emitted` is assigned anywhere
in `start()`. -/
def startLT (st : LTState) : LTState :=
  if st.running then st else { st with running := true, ring := [] }

/-- State effect of `stop()` (lines 182-275): a no-op when not running;
otherwise drained capture-queue bytes are appended to the ring, the
flush protocol runs (clearing the ring), and the running flag is
cleared.  `_started_emitting` and `_last_emitted` are not assigned. -/
def stopLT (p : LiveParams) (qMax : ℕ) (drained : List Nat) (st : LTState)
    (q : List (List Nat)) : LTState × List (List Nat) :=
  if st.running then
    let r := stopFlush p qMax (st.ring ++ drained) q
    ({ st with running := false, ring := r.1 }, r.2)
  else (st, q)

/-- Effect on the instance state of the worker processing one snapshot
(only the latch is mutated by the worker). -/
def applyWorkerSnap (p : LiveParams) (st : LTState) (pcm : List Nat) : LTState :=
  { st with started_emitting := (workerStep p st.started_emitting pcm false).started }

/-- Effect on the instance state of one `_on_segment` callback (only
the remembered text is mutated). -/
def applySegment (st : LTState) (raw : List Char) : LTState :=
  { st with last_emitted := (onSegment st.last_emitted raw).last }

/-- A test configuration with a tiny flush threshold:
`min_flush_seconds = 1/8000 s`, so `min_flush_bytes = 4`. -/
def tinyFlushParams : LiveParams :=
  { defaultParams with min_flush_seconds := ⟨1, 8000, by decide, by decide⟩ }

/-- A test configuration with `min_flush_seconds = 0`, so every
non-empty ring reaches the stop-time flush silence check. -/
def zeroFlushParams : LiveParams :=
  { defaultParams with min_flush_seconds := 0 }

/-! ## Helper lemmas -/

lemma sumSq_nonneg (s : List ℤ) : 0 ≤ sumSq s := by
  induction s with
  | nil => simp [sumSq]
  | cons a t ih =>
    unfold sumSq at ih ⊢
    simp only [List.map_cons, List.sum_cons]
    exact add_nonneg (mul_self_nonneg a) ih

lemma rmsLtFrac_pos {s : List ℤ} {a b : ℤ} (h : rmsLtFrac s a b = true) :
    0 < a := by
  unfold rmsLtFrac at h
  split at h
  · exact of_decide_eq_true h
  · simp only [Bool.and_eq_true, decide_eq_true_eq] at h
    exact h.1

lemma rmsLtFrac_mono {s : List ℤ} {a b a' b' : ℤ} (hb : 0 < b) (hb' : 0 < b')
    (hboth : a * b' ≤ a' * b) (h : rmsLtFrac s a b = true) :
    rmsLtFrac s a' b' = true := by
  have ha : 0 < a := rmsLtFrac_pos h
  have ha' : 0 < a' := by nlinarith
  unfold rmsLtFrac at h ⊢
  by_cases hs : s.isEmpty <;> simp [hs] at h ⊢
  · exact ha'
  · refine ⟨ha', ?_⟩
    obtain ⟨-, h2⟩ := h
    have hn : (0 : ℤ) ≤ (s.length : ℤ) := by positivity
    have hss := sumSq_nonneg s
    have hkey : (a * b') * (a * b') ≤ (a' * b) * (a' * b) :=
      mul_self_le_mul_self (by positivity) hboth
    have h3 : sumSq s * b * b * (b' * b') < a * a * (s.length : ℤ) * (b' * b') :=
      mul_lt_mul_of_pos_right h2 (mul_pos hb' hb')
    have h4 : (a * b') * (a * b') * (s.length : ℤ) ≤ (a' * b) * (a' * b) * (s.length : ℤ) :=
      mul_le_mul_of_nonneg_right hkey hn
    nlinarith [h3, h4, mul_pos hb hb]

lemma rmsLt_mono_rat {s : List ℤ} {c d : ℚ} (hcd : c ≤ d)
    (h : rmsLt s c = true) : rmsLt s d = true := by
  unfold rmsLt at h ⊢
  have hc : (0 : ℤ) < (c.den : ℤ) := by
    exact_mod_cast Nat.pos_of_ne_zero c.den_nz
  have hd : (0 : ℤ) < (d.den : ℤ) := by
    exact_mod_cast Nat.pos_of_ne_zero d.den_nz
  exact rmsLtFrac_mono hc hd (Rat.le_def.mp hcd) h

lemma pushDropOldest_full {C : ℕ} {q : List (List Nat)} (x : List Nat)
    (hC : 0 < C) (hfull : q.length = C) :
    pushDropOldest C q x = q.drop 1 ++ [x] := by
  unfold pushDropOldest
  rw [if_pos ⟨hC, le_of_eq hfull.symm⟩]
  have hq1 : (q.drop 1).length = C - 1 := by simp [hfull]
  have hneg : ¬(0 < C ∧ C ≤ (q.drop 1).length) := by
    rintro ⟨-, hle⟩
    rw [hq1] at hle
    omega
  rw [if_neg hneg]

lemma stopFlush_skip (p : LiveParams) (qMax : ℕ) (ring : List Nat)
    (q : List (List Nat)) (h : (ring.length : ℤ) < minFlushBytesOf p) :
    stopFlush p qMax ring q = ([], q) := by
  simp only [stopFlush]
  rw [if_neg (not_le.mpr h)]
  simp

lemma stopFlush_push (p : LiveParams) (qMax : ℕ) (ring : List Nat)
    (q : List (List Nat)) (hne : ring ≠ [])
    (hlen : minFlushBytesOf p ≤ (ring.length : ℤ))
    (hpass : flushSilent p (samplesLE ring) = false) :
    stopFlush p qMax ring q = ([], pushDropOldest qMax q ring) := by
  simp only [stopFlush]
  rw [if_pos hlen]
  cases ring with
  | nil => exact absurd rfl hne
  | cons a t => simp [hpass]

lemma workerStep_reported (p : LiveParams) (st : Bool) (pcm : List Nat)
    (f : Bool) :
    (workerStep p st pcm f).outcome = WOutcome.transcribeFailed →
      (workerStep p st pcm f).statusReported = true := by
  unfold workerStep
  split
  · intro h
    exact absurd h (by simp)
  · split
    · intro h
      exact absurd h (by simp)
    · split
      · intro h
        exact absurd h (by simp)
      · split
        · intro h
          rfl
        · intro h
          exact absurd h (by simp)

lemma collectorIterate_readFails (window overlap maxBacklog qMax : ℕ)
    (running : Bool) (ring : List Nat) (q backlog : List (List Nat)) :
    collectorIterate window overlap maxBacklog qMax running ring q backlog true =
      ⟨ring, q, backlogDrop maxBacklog backlog, LoopResult.breakLoop, running⟩ := by
  unfold collectorIterate
  rw [if_pos rfl]

lemma workerStep_of_opened (p : LiveParams) (pcm : List Nat) (f : Bool) :
    (workerStep p true pcm f).started = true ∧
      (workerStep p true pcm f).outcome ≠ WOutcome.startSkip := by
  unfold workerStep
  split
  · exact ⟨rfl, by decide⟩
  · rw [if_neg (by simp)]
    split
    · exact ⟨rfl, by decide⟩
    · split
      · exact ⟨rfl, by decide⟩
      · exact ⟨rfl, by decide⟩

lemma workerRun_append (p : LiveParams) (st : Bool)
    (l₁ l₂ : List (List Nat × Bool)) :
    workerRun p st (l₁ ++ l₂) =
      ((workerRun p (workerRun p st l₁).1 l₂).1,
       (workerRun p st l₁).2 ++ (workerRun p (workerRun p st l₁).1 l₂).2) := by
  induction l₁ generalizing st with
  | nil => simp [workerRun]
  | cons a t ih => cases a with | mk pcm f => simp [workerRun, ih]

lemma workerRun_length (p : LiveParams) (st : Bool)
    (items : List (List Nat × Bool)) :
    (workerRun p st items).2.length = items.length := by
  induction items generalizing st with
  | nil => simp [workerRun]
  | cons a t ih => cases a with | mk pcm f => simp [workerRun, ih]

lemma workerRun_opened_no_startSkip (p : LiveParams)
    (items : List (List Nat × Bool)) :
    (workerRun p true items).1 = true ∧
      ∀ o ∈ (workerRun p true items).2, o ≠ WOutcome.startSkip := by
  induction items with
  | nil => simp [workerRun]
  | cons a t ih =>
    cases a with | mk pcm f =>
    have hstep := workerStep_of_opened p pcm f
    simp only [workerRun, hstep.1, List.mem_cons]
    refine ⟨ih.1, ?_⟩
    rintro o (rfl | ho)
    · exact hstep.2
    · exact ih.2 o ho

lemma workerRun_quiet (p : LiveParams) (quiet : List (List Nat))
    (h : ∀ s ∈ quiet, s ≠ [] ∧ peakOf (samplesLE s) < 1500 ∧
      rmsLt (samplesLE s) 120 = true) :
    workerRun p false (quiet.map (fun s => (s, false))) =
      (false, List.replicate quiet.length WOutcome.startSkip) := by
  induction quiet with
  | nil => simp [workerRun]
  | cons a t ih =>
    obtain ⟨hne, hpk, hrms⟩ := h a (by simp)
    have hstep : workerStep p false a false = ⟨false, WOutcome.startSkip, false⟩ := by
      unfold workerStep
      rw [if_neg (fun hcon => hne (by simpa using hcon))]
      rw [if_pos (by simp [hpk, hrms])]
    simp only [List.map_cons, workerRun, hstep, List.length_cons,
      List.replicate_succ]
    rw [ih (fun s hs => h s (by simp [hs]))]

/-- A snapshot that exceeds the hard-coded start threshold is neither
empty nor silenced by the steady SilenceGate when the configured
silence thresholds do not exceed the start thresholds; with the latch
closed it is transcribed and the latch opens. -/
lemma workerStep_exceeding (p : LiveParams) (x : List Nat)
    (hx : ¬(peakOf (samplesLE x) < 1500 ∧ rmsLt (samplesLE x) 120 = true))
    (hrms : p.silence_rms_threshold ≤ 120)
    (hpeak : p.silence_peak_threshold ≤ 1500) :
    workerStep p false x false = ⟨true, .transcribed, false⟩ := by
  have hxe : ¬(x.isEmpty = true) := by
    intro hxe
    have hnil : x = [] := by simpa using hxe
    refine hx ?_
    subst hnil
    exact ⟨by decide, by decide⟩
  have hsil : steadySilent p (samplesLE x) = false := by
    cases hs : steadySilent p (samplesLE x)
    · rfl
    · exfalso
      unfold steadySilent at hs
      simp only [Bool.and_eq_true, decide_eq_true_eq] at hs
      obtain ⟨-, hr, hp⟩ := hs
      exact hx ⟨lt_of_lt_of_le hp hpeak, rmsLt_mono_rat hrms hr⟩
  unfold workerStep
  rw [if_neg hxe]
  rw [if_neg (by
    simp only [Bool.not_false, Bool.true_and, Bool.and_eq_true,
      decide_eq_true_eq, not_and]
    intro hp hr
    exact absurd ⟨hp, hr⟩ hx)]
  rw [if_neg (by simp [hsil])]
  rw [if_neg (by simp)]

/-! ## Claims -/

/-- C1 counterexample: the claim quantifies over every session
configuration with `overlap_bytes ≤ window_bytes`, but for
`window_bytes = 0` (and hence `overlap_bytes = 0`) the Python slice
`ring[-window_bytes:]` is the whole buffer, so after appending one
byte the ring length 1 is `≥ window_bytes` and a snapshot of length
1 ≠ `window_bytes` is extracted. -/
theorem window_extract_zero_window_cex :
    (0 : ℕ) ≤ 0 ∧ 0 ≤ [1].length ∧
      (collectorWindowStep 0 0 [1]).2 = some [1] ∧
      (collectorWindowStep 0 0 [1]).2.map List.length ≠ some 0 := by
  decide

/-- C1 (amended with `0 < window_bytes`, as the counterexample forces):
for every configuration with `0 < window_bytes` and
`overlap_bytes ≤ window_bytes`, whenever the ring holds at least
`window_bytes` bytes after an append, the extracted snapshot has
length exactly `window_bytes`, the ring afterwards holds exactly
`overlap_bytes` bytes (0 when the overlap is 0), and the retained
bytes are the tail of the extracted snapshot. -/
theorem window_extract_law (window overlap : ℕ) (ring : List Nat)
    (hw : 0 < window) (ho : overlap ≤ window) (hlen : window ≤ ring.length) :
    ∃ snap, (collectorWindowStep window overlap ring).2 = some snap ∧
      snap.length = window ∧
      (collectorWindowStep window overlap ring).1.length = overlap ∧
      (collectorWindowStep window overlap ring).1 =
        snap.drop (snap.length - overlap) := by
  have hwz : window ≠ 0 := Nat.pos_iff_ne_zero.mp hw
  have hstep : collectorWindowStep window overlap ring =
      (if 0 < overlap then pyTail overlap ring else [], some (pyTail window ring)) := by
    unfold collectorWindowStep
    rw [if_pos hlen]
  have hsl : (pyTail window ring).length = window := by
    unfold pyTail
    rw [if_neg hwz, List.length_drop]
    omega
  rw [hstep]
  refine ⟨pyTail window ring, rfl, hsl, ?_, ?_⟩
  · show (if 0 < overlap then pyTail overlap ring else []).length = overlap
    by_cases hov : 0 < overlap
    · rw [if_pos hov]
      unfold pyTail
      rw [if_neg (Nat.pos_iff_ne_zero.mp hov), List.length_drop]
      omega
    · rw [if_neg hov]
      simp only [List.length_nil]
      omega
  · show (if 0 < overlap then pyTail overlap ring else []) =
      (pyTail window ring).drop ((pyTail window ring).length - overlap)
    rw [hsl]
    by_cases hov : 0 < overlap
    · rw [if_pos hov]
      unfold pyTail
      rw [if_neg (Nat.pos_iff_ne_zero.mp hov), if_neg hwz]
      rw [List.drop_drop]
      congr 1
      omega
    · rw [if_neg hov]
      have hz : overlap = 0 := by omega
      subst hz
      rw [Nat.sub_zero]
      symm
      rw [List.drop_eq_nil_iff, hsl]

/-- C1 witness: a concrete run of the amended law with
`window_bytes = 4`, `overlap_bytes = 2` on a 6-byte ring. -/
theorem window_extract_law_witness :
    ∃ snap, (collectorWindowStep 4 2 [10, 11, 12, 13, 14, 15]).2 = some snap ∧
      snap.length = 4 ∧
      (collectorWindowStep 4 2 [10, 11, 12, 13, 14, 15]).1.length = 2 ∧
      (collectorWindowStep 4 2 [10, 11, 12, 13, 14, 15]).1 =
        snap.drop (snap.length - 2) :=
  window_extract_law 4 2 [10, 11, 12, 13, 14, 15] (by decide) (by decide) (by decide)

/-- C6: pushing a snapshot into a full BoundedHandoffQueue of capacity
`C` discards the single oldest queued entry and leaves the `C - 1`
newest prior entries followed by the new snapshot.  No error reaches
the caller: the push is a total function (every exception of the
underlying queue is caught at both sites), and `pushDropOldest` is the
push executed both by the Collector (lines 369-384) and by the
stop-time flush (lines 249-258). -/
theorem handoff_drop_oldest (C : ℕ) (q : List (List Nat)) (x : List Nat)
    (hC : 0 < C) (hfull : q.length = C) :
    pushDropOldest C q x = q.drop 1 ++ [x] ∧ (q.drop 1).length = C - 1 :=
  ⟨pushDropOldest_full x hC hfull, by simp [hfull]⟩

/-- C6 witness: a full queue of capacity 2. -/
theorem handoff_drop_oldest_witness :
    pushDropOldest 2 [[1], [2]] [3] = [[1], [2]].drop 1 ++ [[3]] ∧
      ([[1], [2]].drop 1).length = 2 - 1 :=
  handoff_drop_oldest 2 [[1], [2]] [3] (by decide) (by decide)

lemma collectorIterate_backlog_suffix (window overlap maxBacklog qMax : ℕ)
    (running : Bool) (ring : List Nat) (q backlog : List (List Nat)) :
    (collectorIterate window overlap maxBacklog qMax running ring q backlog
      false).backlog <:+ backlogDrop maxBacklog backlog := by
  unfold collectorIterate
  rw [if_neg (by simp)]
  split
  · rename_i heq
    rw [heq]
  · rename_i d rest heq
    rw [heq]
    split
    · exact List.suffix_cons d rest
    · rcases hws : (collectorWindowStep window overlap (ring ++ d)).2 with _ | snap
      · simp only [hws]
        exact List.suffix_cons d rest
      · simp only [hws]
        exact List.suffix_cons d rest

lemma nat_half_le_rat_half (M : ℕ) : ((M / 2 : ℕ) : ℚ) ≤ (M : ℚ) / 2 := by
  rw [le_div_iff₀ (by norm_num : (0 : ℚ) < 2)]
  exact_mod_cast Nat.div_mul_le_self M 2

/-- C7: given a pending-chunk backlog of `K` chunks with
`K > max_backlog_chunks` at the start of a Collector iteration, after
that single iteration the backlog is a suffix of the original backlog
(only the oldest chunks were removed) and holds at most
`max_backlog_chunks / 2` chunks (stated both with the integer division
the code computes and with exact rational division). -/
theorem backlog_protection (window overlap maxBacklog qMax : ℕ)
    (running : Bool) (ring : List Nat) (q backlog : List (List Nat))
    (hK : maxBacklog < backlog.length) :
    (collectorIterate window overlap maxBacklog qMax running ring q backlog
      false).backlog <:+ backlog ∧
    (collectorIterate window overlap maxBacklog qMax running ring q backlog
      false).backlog.length ≤ maxBacklog / 2 ∧
    ((collectorIterate window overlap maxBacklog qMax running ring q backlog
      false).backlog.length : ℚ) ≤ (maxBacklog : ℚ) / 2 := by
  have hdrop : backlogDrop maxBacklog backlog =
      backlog.drop (backlog.length - maxBacklog / 2) := by
    unfold backlogDrop
    rw [if_pos hK]
  have hlen : (backlogDrop maxBacklog backlog).length = maxBacklog / 2 := by
    rw [hdrop, List.length_drop]
    omega
  have hsuf : backlogDrop maxBacklog backlog <:+ backlog := by
    rw [hdrop]
    exact List.drop_suffix _ _
  have hsub := collectorIterate_backlog_suffix window overlap maxBacklog qMax
    running ring q backlog
  have hle : (collectorIterate window overlap maxBacklog qMax running ring q
      backlog false).backlog.length ≤ maxBacklog / 2 := by
    rw [← hlen]
    exact hsub.length_le
  refine ⟨hsub.trans hsuf, hle, ?_⟩
  calc ((collectorIterate window overlap maxBacklog qMax running ring q backlog
      false).backlog.length : ℚ)
      ≤ ((maxBacklog / 2 : ℕ) : ℚ) := by exact_mod_cast hle
    _ ≤ (maxBacklog : ℚ) / 2 := nat_half_le_rat_half maxBacklog

/-- C7 witness: a backlog of 3 chunks with `max_backlog_chunks = 2`. -/
theorem backlog_protection_witness :
    (collectorIterate 4 2 2 20 true [] [] [[1], [2], [3]] false).backlog
      <:+ [[1], [2], [3]] ∧
    (collectorIterate 4 2 2 20 true [] [] [[1], [2], [3]] false).backlog.length
      ≤ 2 / 2 ∧
    ((collectorIterate 4 2 2 20 true [] [] [[1], [2], [3]]
      false).backlog.length : ℚ) ≤ (2 : ℚ) / 2 :=
  backlog_protection 4 2 2 20 true [] [] [[1], [2], [3]] (by decide)

/-- C2: at `stop()`, with `min_flush_bytes = int(min_flush_seconds *
bytes_per_second)`: a ring holding strictly fewer than
`min_flush_bytes` bytes (in particular `min_flush_bytes - 1`) yields
no flush snapshot and the remainder is discarded, while a non-empty
even-length ring holding at least `min_flush_bytes` bytes whose audio
passes the flush silence check is pushed in full — exactly one flush
snapshot, equal to the entire ring contents — into the hand-off
queue; the ring is cleared in both cases.  (Even length is the
well-formedness domain of the int16 decoding; non-emptiness is
implied by the audio being non-silent.) -/
theorem stop_flush_law (p : LiveParams) (qMax : ℕ) (ring : List Nat)
    (q : List (List Nat)) :
    ((ring.length : ℤ) < minFlushBytesOf p →
      stopFlush p qMax ring q = ([], q)) ∧
    (ring ≠ [] → ring.length % 2 = 0 →
      minFlushBytesOf p ≤ (ring.length : ℤ) →
      flushSilent p (samplesLE ring) = false →
      stopFlush p qMax ring q = ([], pushDropOldest qMax q ring)) :=
  ⟨fun h => stopFlush_skip p qMax ring q h,
   fun hne _ hlen hpass => stopFlush_push p qMax ring q hne hlen hpass⟩

/-- C2 witness: with `min_flush_bytes = 4`, a 3-byte ring
(`min_flush_bytes - 1` bytes) is discarded, and a 4-byte non-silent
ring (samples `[1200, 0]`) is flushed whole. -/
theorem stop_flush_law_witness :
    stopFlush tinyFlushParams 20 [0, 0, 0] [] = ([], []) ∧
    stopFlush tinyFlushParams 20 [176, 4, 0, 0] [] =
      ([], pushDropOldest 20 [] [176, 4, 0, 0]) :=
  ⟨(stop_flush_law tinyFlushParams 20 [0, 0, 0] []).1 (by decide),
   (stop_flush_law tinyFlushParams 20 [176, 4, 0, 0] []).2 (by decide)
     (by decide) (by decide) (by decide)⟩

/-- C3 counterexample: the claim says no single chunk-read failure
terminates the Collector loop, but the Collector's
`except Exception` handler (lines 388-392) ends in `break`: a read
failure during a running session exits the loop. -/
theorem collector_error_break_cex :
    (collectorIterate 160000 48000 200 20 true [] [] [] true).result =
      LoopResult.breakLoop ∧
    LoopResult.breakLoop ≠ LoopResult.continueLoop := by
  decide

/-- C3 (amended): per-item failure handling is asymmetric.  A single
Transcriber-call failure in the Worker is recovered locally: the
worker loop yields one outcome per queued snapshot with no early exit,
and a failed call is reported via the status callback.  A single
chunk-read failure in the Collector is logged and reported via the
status callback when the session is running, but terminates the
Collector loop (`break`) instead of continuing with the next
iteration. -/
theorem per_item_failure_amended (p : LiveParams) (started : Bool)
    (items : List (List Nat × Bool)) (pcm : List Nat)
    (window overlap maxBacklog qMax : ℕ) (running : Bool)
    (ring : List Nat) (q backlog : List (List Nat)) :
    (workerRun p started items).2.length = items.length ∧
    ((workerStep p started pcm true).outcome = WOutcome.transcribeFailed →
      (workerStep p started pcm true).statusReported = true) ∧
    (collectorIterate window overlap maxBacklog qMax running ring q backlog
      true).result = LoopResult.breakLoop ∧
    (collectorIterate window overlap maxBacklog qMax running ring q backlog
      true).statusReported = running := by
  refine ⟨workerRun_length p started items,
    workerStep_reported p started pcm true, ?_, ?_⟩
  · rw [collectorIterate_readFails]
  · rw [collectorIterate_readFails]

/-- C3 witness: a loud snapshot whose Transcriber call fails is
processed and reported while the worker keeps running; a Collector
read failure breaks its loop. -/
theorem per_item_failure_amended_witness :
    (workerRun defaultParams true [([208, 7], true)]).2.length = 1 ∧
    (workerStep defaultParams true [208, 7] true).statusReported = true ∧
    (collectorIterate 4 2 200 20 true [] [] [] true).result =
      LoopResult.breakLoop := by
  have h := per_item_failure_amended defaultParams true [([208, 7], true)]
    [208, 7] 4 2 200 20 true [] [] []
  exact ⟨h.1, h.2.1 (by decide), h.2.2.1⟩

/-- C4 counterexample: the claim asserts that for every pair of
consecutive non-empty texts with equal normalizations the callback is
invoked exactly once, for the first of the two; but when the first
text's normalization already equals the remembered last-emitted text
(here `hello` emitted earlier), the first is itself suppressed and the
pair produces zero invocations. -/
theorem dedupe_pair_cex :
    stripWs (['H', 'e', 'l', 'l', 'o']) ≠ [] ∧
    stripWs (['h', 'e', 'l', 'l', 'o', '.']) ≠ [] ∧
    normPunct (stripWs (['H', 'e', 'l', 'l', 'o'])) =
      normPunct (stripWs (['h', 'e', 'l', 'l', 'o', '.'])) ∧
    (onSegment (['h', 'e', 'l', 'l', 'o']) (['H', 'e', 'l', 'l', 'o'])).emitted
      = none ∧
    (onSegment
        (onSegment (['h', 'e', 'l', 'l', 'o']) (['H', 'e', 'l', 'l', 'o'])).last
        (['h', 'e', 'l', 'l', 'o', '.'])).emitted = none := by
  decide

/-- C4 (amended with the precondition, forced by the counterexample,
that the first text of the pair is not itself suppressed against the
previously remembered text): the first text is emitted and remembered;
a second text with the same normalization is suppressed without a
callback and leaves the remembered text unchanged; a second text with
a different normalization is emitted and the remembered text is
updated on each non-suppressed emission. -/
theorem dedupe_amended (last t₁ t₂ : List Char)
    (h₁ : stripWs t₁ ≠ []) (h₂ : stripWs t₂ ≠ [])
    (hfresh : normPunct (stripWs t₁) ≠ normPunct last) :
    (onSegment last t₁).emitted = some (stripWs t₁) ∧
    (onSegment last t₁).last = stripWs t₁ ∧
    (normPunct (stripWs t₂) = normPunct (stripWs t₁) →
      (onSegment (stripWs t₁) t₂).emitted = none ∧
      (onSegment (stripWs t₁) t₂).last = stripWs t₁) ∧
    (normPunct (stripWs t₂) ≠ normPunct (stripWs t₁) →
      (onSegment (stripWs t₁) t₂).emitted = some (stripWs t₂) ∧
      (onSegment (stripWs t₁) t₂).last = stripWs t₂) := by
  have ho1 : onSegment last t₁ = ⟨stripWs t₁, some (stripWs t₁), .emitted⟩ := by
    unfold onSegment
    rw [if_neg (fun hcon => h₁ (by simpa using hcon))]
    rw [if_neg hfresh]
  refine ⟨by rw [ho1], by rw [ho1], ?_, ?_⟩
  · intro heq
    have ho2 : onSegment (stripWs t₁) t₂ = ⟨stripWs t₁, none, .deduped⟩ := by
      unfold onSegment
      rw [if_neg (fun hcon => h₂ (by simpa using hcon))]
      rw [if_pos heq]
    rw [ho2]
    exact ⟨rfl, rfl⟩
  · intro hne
    have ho2 : onSegment (stripWs t₁) t₂ =
        ⟨stripWs t₂, some (stripWs t₂), .emitted⟩ := by
      unfold onSegment
      rw [if_neg (fun hcon => h₂ (by simpa using hcon))]
      rw [if_neg hne]
    rw [ho2]
    exact ⟨rfl, rfl⟩

/-- C4 witness: from a fresh session (`last = ""`), `Hi` is emitted;
the equal-normalization follow-up `hi!` is suppressed; the
different-normalization follow-up `no` is emitted. -/
theorem dedupe_amended_witness :
    (onSegment [] (['H', 'i'])).emitted = some (stripWs (['H', 'i'])) ∧
    (onSegment (stripWs (['H', 'i'])) (['h', 'i', '!'])).emitted = none ∧
    (onSegment (stripWs (['H', 'i'])) (['n', 'o'])).emitted =
      some (stripWs (['n', 'o'])) := by
  have ha := dedupe_amended [] (['H', 'i']) (['h', 'i', '!'])
    (by decide) (by decide) (by decide)
  have hb := dedupe_amended [] (['H', 'i']) (['n', 'o'])
    (by decide) (by decide) (by decide)
  exact ⟨ha.1, (ha.2.2.1 (by decide)).1, (hb.2.2.2 (by decide)).1⟩

/-- C5 counterexample: with the default configuration, the first
snapshot (sample value 2000) exceeds the start threshold (the `M = 0`
instance of the claim), so by the claim it and every later snapshot
should reach the Transcriber; but the following quiet snapshot
(sample value 0) is discarded by the SilenceGate and never reaches
the Transcriber. -/
theorem start_gate_cex :
    ¬(peakOf (samplesLE [208, 7]) < 1500 ∧
        rmsLt (samplesLE [208, 7]) 120 = true) ∧
    workerRun defaultParams false [([208, 7], false), ([0, 0], false)] =
      (true, [WOutcome.transcribed, WOutcome.silenceSkip]) ∧
    WOutcome.silenceSkip ≠ WOutcome.transcribed := by
  decide

/-- C5 (amended): in a session whose first `M` snapshots are all
non-empty and below the hard-coded start threshold
(`peak < 1500 and rms < 120`) while snapshot `M + 1` exceeds it, the
first `M` snapshots are discarded by the StartGate and never reach
the Transcriber; snapshot `M + 1` is transcribed (whenever the
configured silence thresholds do not exceed the start thresholds, as
with the defaults) and opens the latch permanently; no later snapshot
is ever discarded by the StartGate, though — contrary to the original
claim — later snapshots may still be discarded by the SilenceGate. -/
theorem start_gate_amended (p : LiveParams) (quiet : List (List Nat))
    (x : List Nat) (rest : List (List Nat))
    (hq : ∀ s ∈ quiet, s ≠ [] ∧ peakOf (samplesLE s) < 1500 ∧
      rmsLt (samplesLE s) 120 = true)
    (hx : ¬(peakOf (samplesLE x) < 1500 ∧ rmsLt (samplesLE x) 120 = true))
    (hrms : p.silence_rms_threshold ≤ 120)
    (hpeak : p.silence_peak_threshold ≤ 1500) :
    (workerRun p false ((quiet ++ x :: rest).map (fun s => (s, false)))).2 =
      List.replicate quiet.length WOutcome.startSkip ++
        WOutcome.transcribed ::
          (workerRun p true (rest.map (fun s => (s, false)))).2 ∧
    (∀ o ∈ (workerRun p true (rest.map (fun s => (s, false)))).2,
      o ≠ WOutcome.startSkip) ∧
    (workerRun p false ((quiet ++ x :: rest).map (fun s => (s, false)))).1 =
      true := by
  have hqr := workerRun_quiet p quiet hq
  have hxs := workerStep_exceeding p x hx hrms hpeak
  have hop := workerRun_opened_no_startSkip p (rest.map (fun s => (s, false)))
  rw [List.map_append, List.map_cons, workerRun_append, hqr]
  simp only [workerRun, hxs]
  exact ⟨trivial, hop.2, hop.1⟩

/-- C5 witness: quiet snapshot, loud snapshot (sample 2000), quiet
snapshot, under the default configuration. -/
theorem start_gate_amended_witness :
    (workerRun defaultParams false
      (([[0, 0]] ++ [208, 7] :: [[0, 0]]).map (fun s => (s, false)))).2 =
      List.replicate [[0, 0]].length WOutcome.startSkip ++
        WOutcome.transcribed ::
          (workerRun defaultParams true ([[0, 0]].map (fun s => (s, false)))).2 ∧
    (∀ o ∈ (workerRun defaultParams true ([[0, 0]].map (fun s => (s, false)))).2,
      o ≠ WOutcome.startSkip) ∧
    (workerRun defaultParams false
      (([[0, 0]] ++ [208, 7] :: [[0, 0]]).map (fun s => (s, false)))).1 = true :=
  start_gate_amended defaultParams [[0, 0]] [208, 7] [[0, 0]]
    (by decide) (by decide) (by decide) (by decide)

set_option maxRecDepth 8000 in
/-- C8 counterexample: a snapshot of 199 samples `[901, 0, ..., 0]`
(RMS ≈ 63.9, peak 901) under the default thresholds (RMS 80, peak
900): the flush check discards it (RMS < 64 and peak < 1170) but the
steady-state SilenceGate does not (peak 901 ≥ 900), so the flush
check is not more permissive than steady-state gating. -/
theorem flush_gate_cex :
    flushSilent defaultParams (901 :: List.replicate 198 0) = true ∧
    steadySilent defaultParams (901 :: List.replicate 198 0) = false := by
  decide

/-- C8 (amended, restricted as the counterexample forces): the flush
silence check is more permissive than the steady SilenceGate on the
RMS axis only — every non-empty snapshot the flush check discards
whose peak is also below `silence_peak_threshold` is discarded by the
steady gate too.  The containment fails precisely for peaks in
`[silence_peak_threshold, int(1.3 * silence_peak_threshold))`, where
the scaled-up flush peak threshold discards more, not less. -/
theorem flush_gate_amended (p : LiveParams) (s : List ℤ) (hne : s ≠ [])
    (hpeak : peakOf s < p.silence_peak_threshold)
    (hflush : flushSilent p s = true) : steadySilent p s = true := by
  unfold flushSilent at hflush
  simp only [Bool.and_eq_true, decide_eq_true_eq] at hflush
  obtain ⟨hr, -⟩ := hflush
  have hden : (0 : ℤ) < (p.silence_rms_threshold.den : ℤ) := by
    exact_mod_cast Nat.pos_of_ne_zero p.silence_rms_threshold.den_nz
  have hnum4 : 0 < 4 * p.silence_rms_threshold.num := rmsLtFrac_pos hr
  have hnum : 0 < p.silence_rms_threshold.num := by linarith
  have hmono : rmsLtFrac s p.silence_rms_threshold.num
      (p.silence_rms_threshold.den : ℤ) = true := by
    refine rmsLtFrac_mono (mul_pos (by norm_num) hden) hden ?_ hr
    nlinarith [mul_nonneg (le_of_lt hnum) (le_of_lt hden)]
  unfold steadySilent
  simp only [Bool.and_eq_true, decide_eq_true_eq]
  rcases s with _ | ⟨a, t⟩
  · exact absurd rfl hne
  · exact ⟨rfl, hmono, hpeak⟩

/-- C8 witness: an all-zero one-sample snapshot is discarded by both
checks. -/
theorem flush_gate_amended_witness :
    peakOf [(0 : ℤ)] < defaultParams.silence_peak_threshold ∧
    flushSilent defaultParams [0] = true ∧
    steadySilent defaultParams [0] = true :=
  ⟨by decide, by decide,
   flush_gate_amended defaultParams [0] (by decide) (by decide) (by decide)⟩

/-- C9 counterexample: within one LiveTranscriber instance, a session
that opens the StartGate latch (loud snapshot, sample 2000) and emits
`Hello`, followed by `stop()` and a new `start()`: after the second
`start()` the latch is still open and the remembered dedupe text is
still `Hello`, although the claim requires the latch closed and the
text cleared at session start. -/
theorem session_reset_cex :
    (startLT ((stopLT defaultParams 20 []
        (applySegment (applyWorkerSnap defaultParams (startLT initLT) [208, 7])
          (['H', 'e', 'l', 'l', 'o'])) []).1)).started_emitting = true ∧
    (startLT ((stopLT defaultParams 20 []
        (applySegment (applyWorkerSnap defaultParams (startLT initLT) [208, 7])
          (['H', 'e', 'l', 'l', 'o'])) []).1)).last_emitted =
      ['H', 'e', 'l', 'l', 'o'] ∧
    true ≠ false ∧ ['H', 'e', 'l', 'l', 'o'] ≠ ([] : List Char) := by
  decide

/-- C9 (amended): `start()` clears the RingBuffer (when not already
running) and raises the running flag, but neither the StartGate latch
nor the remembered last-emitted dedupe text; `stop()` does not reset
them either.  Both are assigned only in the constructor, so they
survive a stop()/start() cycle and gating/dedupe decisions in a new
session can depend on the previous session. -/
theorem session_reset_amended (p : LiveParams) (qMax : ℕ)
    (drained : List Nat) (st : LTState) (q : List (List Nat)) :
    (startLT st).started_emitting = st.started_emitting ∧
    (startLT st).last_emitted = st.last_emitted ∧
    (startLT st).running = true ∧
    (startLT st).ring = (if st.running then st.ring else []) ∧
    ((stopLT p qMax drained st q).1).started_emitting = st.started_emitting ∧
    ((stopLT p qMax drained st q).1).last_emitted = st.last_emitted := by
  unfold startLT stopLT
  by_cases h : st.running
  · rw [if_pos h, if_pos h, if_pos h]
    exact ⟨rfl, rfl, h, rfl, rfl, rfl⟩
  · rw [if_neg h, if_neg h, if_neg h]
    exact ⟨rfl, rfl, rfl, rfl, rfl, rfl⟩

/-- C10: a flush snapshot queued by `stop()` — non-empty, long enough
to flush, and passing the stop-time flush silence check — is still
subjected to the Worker's gates: in a session whose StartGate never
opened, if its peak and RMS are below the hard-coded start threshold
(`peak < 1500 and rms < 120`) the Worker discards it
(`startSkip`, the latch stays closed) and it never reaches the
Transcriber. -/
theorem flush_still_gated (p : LiveParams) (qMax : ℕ) (pcm : List Nat)
    (q : List (List Nat)) (hne : pcm ≠ []) (_heven : pcm.length % 2 = 0)
    (hlen : minFlushBytesOf p ≤ (pcm.length : ℤ))
    (hpass : flushSilent p (samplesLE pcm) = false)
    (hpeak : peakOf (samplesLE pcm) < 1500)
    (hrms : rmsLt (samplesLE pcm) 120 = true) :
    stopFlush p qMax pcm q = ([], pushDropOldest qMax q pcm) ∧
    workerStep p false pcm false = ⟨false, WOutcome.startSkip, false⟩ := by
  refine ⟨stopFlush_push p qMax pcm q hne hlen hpass, ?_⟩
  unfold workerStep
  rw [if_neg (fun hcon => hne (by simpa using hcon))]
  rw [if_pos (by simp [hpeak, hrms])]

set_option maxRecDepth 8000 in
/-- C10 witness: with `min_flush_seconds = 0`, a 202-byte buffer of
samples `[1200, 0, ..., 0]` (peak 1200, RMS ≈ 119.4) passes the flush
check (peak 1200 ≥ 1170 scaled flush peak threshold would not matter:
its RMS 119.4 ≥ 64 already fails the flush-discard condition), is
queued whole by `stop()`, and is then discarded by the closed
StartGate (peak < 1500, RMS < 120). -/
theorem flush_still_gated_witness :
    stopFlush zeroFlushParams 20 ([176, 4] ++ List.replicate 200 0) [] =
      ([], pushDropOldest 20 [] ([176, 4] ++ List.replicate 200 0)) ∧
    workerStep zeroFlushParams false ([176, 4] ++ List.replicate 200 0) false =
      ⟨false, WOutcome.startSkip, false⟩ :=
  flush_still_gated zeroFlushParams 20 ([176, 4] ++ List.replicate 200 0) []
    (by decide) (by decide) (by decide) (by decide) (by decide) (by decide)

end ContinuousV2T
